import Mathlib

/-!
Verification of `make_doe_json.py`, a script that converts spreadsheet rows
of wildfire-suppression DoE scenarios into a nested JSON document.

Shallow embedding: a spreadsheet cell is a `Cell` (missing/NaN, a string,
or a number); a row is a total function from column name to `Cell`, with a
missing column reading as NaN (`pandas.Series.get` returns `None` there and
`pd.isna(None)` is true).  Python numbers are modelled as exact rationals.
Dicts with optional keys are modelled as structures with `Option` fields;
a dict key is "present" exactly when the field is `some`.
-/

/-- Python `str.strip()`: drop leading and trailing whitespace.  (Written
over the character list so that it evaluates inside the kernel.) -/
def String.pyStrip (s : String) : String :=
  ⟨((s.data.dropWhile Char.isWhitespace).reverse.dropWhile Char.isWhitespace).reverse⟩

/-- Python `str.lower()` (ASCII case folding suffices for the script's
comparisons with `"vegetation"`/`"water"`). -/
def String.pyLower (s : String) : String := ⟨s.data.map Char.toLower⟩

/-- A spreadsheet cell as the script sees it: missing/NaN, a string, or a
number (Python `int` or `float`, modelled exactly as a rational). -/
inductive Cell where
  | nan : Cell
  | str : String → Cell
  | num : ℚ → Cell
deriving DecidableEq

/-- `pd.isna` on a cell (`None` and float NaN both read as missing). -/
def Cell.isna : Cell → Bool
  | .nan => true
  | _ => false

/-- Python `str(val)` of a cell value.  Only its trimmed/empty behaviour
matters to the script; a number renders to a non-empty token. -/
def Cell.pyStr : Cell → String
  | .nan => "nan"
  | .str s => s
  | .num q => if q.den = 1 then toString q.num else toString q

/-- Python truthiness (`bool(val)`) of a cell value: `0`/`0.0` and the
empty string are falsy; float NaN is truthy. -/
def Cell.truthy : Cell → Bool
  | .nan => true
  | .str s => s ≠ ""
  | .num q => q ≠ 0

/-- One spreadsheet row after forward-fill: `row.get(col)` for each column
name, with an absent column reading as `nan`. -/
def Row : Type := String → Cell

/-- Python truthiness of an `Optional[str]` (`None` and `""` are falsy). -/
def optStrTruthy : Option String → Bool
  | none => false
  | some s => s ≠ ""

/-- Python truthiness of an optional raw cell value. -/
def optCellTruthy : Option Cell → Bool
  | none => false
  | some c => c.truthy

/-- Python `a or b` on optional strings. -/
def pyOrStr : Option String → Option String → Option String
  | some s, b => if s = "" then b else some s
  | none, b => b

/-- Python `a or d` with a plain string default `d`. -/
def pyOrDefault : Option String → String → String
  | some s, d => if s = "" then d else s
  | none, d => d

/-- The Python `if value:` guard on a dict insertion: keep the value only
when it is truthy. -/
def pyTruthyOpt : Option String → Option String
  | some s => if s = "" then none else some s
  | none => none

/-- `SHEET_NAME` of the CONFIG block. -/
def SHEET_NAME : String := "Pyrenees DoE"

/-- `NUM_BASES` of the CONFIG block (the script aborts at import time when
it is `< 1`). -/
def NUM_BASES : Int := 2

/-- `AIRCRAFT_FILE` of the CONFIG block. -/
def AIRCRAFT_FILE : String := "SUT_series_hybrid.json"

/-- `distribute_across_bases(total, num_bases)` (lines 80–109): near-even,
left-heavy split.  Python `//` / `%` are floor division and
sign-of-divisor remainder, i.e. `Int.fdiv` / `Int.fmod`.  The
`counts = [base] * num_bases` list followed by the loop
`for i in range(remainder): counts[i] += 1` is modelled by incrementing
the entries whose index is below `remainder`.  Python list repetition
`[x] * n` with `n <= 0` is the empty list, as is
`List.replicate n.toNat x` for `n <= 0`. -/
def distribute_across_bases (total : Int) (num_bases : Int) : List Int :=
  if total ≥ num_bases then
    let base := total.fdiv num_bases
    let remainder := total.fmod num_bases
    (List.replicate num_bases.toNat base).mapIdx
      (fun i c => if (i : Int) < remainder then c + 1 else c)
  else
    List.replicate total.toNat 1 ++ List.replicate (num_bases - total).toNat 0

/-- `safe_str(val)` (lines 111–126): `None` for NaN/missing and for values
whose string form is empty after stripping; otherwise the stripped string
form. -/
def safe_str (val : Cell) : Option String :=
  if val.isna then none
  else if val.pyStr.pyStrip ≠ "" then some val.pyStr.pyStrip else none

/-- The `main` tactic dict: each key present only when set. -/
structure MainTactic where
  select_poi : Option String
  track_poi : Option String
  suppress : Option String
deriving DecidableEq

/-- The `alternative_tactic` dict: all three keys are always set when it
is built. -/
structure AltTactic where
  select_poi : String
  track_poi : String
  suppress : String
deriving DecidableEq

/-- A JSON value stored under `"threshold"`: a collapsed integer, an
unchanged non-integral number, or a raw string cell passed through. -/
inductive JThresh where
  | int : Int → JThresh
  | rat : ℚ → JThresh
  | str : String → JThresh
deriving DecidableEq

/-- The `alternative` dict built on lines 195–210. -/
structure AltObj where
  change_condition : Option String
  threshold : Option JThresh
  alternative_tactic : AltTactic
deriving DecidableEq

/-- The suppression tactic block returned by `build_suppression`. -/
structure TacticBlock where
  main : MainTactic
  alternative : Option AltObj
deriving DecidableEq

/-- The keys of the tactic-block dict, in insertion order: `"main"` is set
unconditionally on line 165, `"alternative"` on line 210 under the
presence test. -/
def TacticBlock.keys (t : TacticBlock) : List String :=
  "main" :: (if t.alternative.isSome then ["alternative"] else [])

/-- Lines 157–163: the `main` tactic, each key guarded by
`if safe_str(...)` (Python truthiness of the normalized value). -/
def main_tactic (mp : String) (row : Row) : MainTactic :=
  { select_poi := pyTruthyOpt (safe_str (row (mp ++ "select_poi")))
    track_poi := pyTruthyOpt (safe_str (row (mp ++ "track_poi")))
    suppress := pyTruthyOpt (safe_str (row (mp ++ "suppress"))) }

/-- Lines 167–178: `alt_present = any(alt_fields) or any([...])`, with
Python truthiness throughout — a threshold cell that is present but falsy
(`0`, `0.0`, `""`) does not count. -/
def alt_present (mp ap : String) (row : Row) : Bool :=
  (optStrTruthy (safe_str (row (ap ++ "select_poi"))) ||
   optStrTruthy (safe_str (row (ap ++ "track_poi"))) ||
   optStrTruthy (safe_str (row (ap ++ "suppress"))) ||
   optStrTruthy (safe_str (row (ap ++ "change_condition"))) ||
   optCellTruthy
     (if (row (ap ++ "threshold")).isna then none else some (row (ap ++ "threshold")))) ||
  (optStrTruthy (safe_str (row (mp ++ "change_condition"))) ||
   optCellTruthy
     (if (row (mp ++ "threshold")).isna then none else some (row (mp ++ "threshold"))))

/-- Lines 181–193: the alternative tactic, with the alternative-prefixed
value winning and a default otherwise (`select_poi` flips the main
tactic's value case-insensitively, `main.get("select_poi", "").lower()`). -/
def alt_tactic_of (mp ap : String) (row : Row) : AltTactic :=
  { select_poi :=
      match pyTruthyOpt (safe_str (row (ap ++ "select_poi"))) with
      | some s => s
      | none =>
        let main_sel :=
          String.pyLower (match (main_tactic mp row).select_poi with
                   | some s => s
                   | none => "")
        if main_sel = "vegetation" then "water"
        else if main_sel = "water" then "vegetation"
        else "vegetation"
    track_poi := pyOrDefault (safe_str (row (ap ++ "track_poi"))) "follow_firefront"
    suppress := pyOrDefault (safe_str (row (ap ++ "suppress"))) "direct" }

/-- Lines 202/205: `int(val) if isinstance(val, (float, int)) and
float(val).is_integer() else val`.  An exactly-integral number collapses
to its integer; other numbers and string cells pass through unchanged.
The `nan` arm is never reached: both call sites guard with
`not pd.isna(...)`. -/
def collapse : Cell → JThresh
  | .num q => if q.den = 1 then .int q.num else .rat q
  | .str s => .str s
  | .nan => .rat 0

/-- Lines 195–209: the enclosing `alternative` object.  `change_condition`
is inserted under `if change_cond:` (truthiness); `threshold` under
`if thresh is not None:`, so a falsy but present threshold cell is still
inserted here. -/
def alt_obj_of (mp ap : String) (row : Row) : AltObj :=
  { change_condition :=
      pyTruthyOpt (pyOrStr (safe_str (row (ap ++ "change_condition")))
                           (safe_str (row (mp ++ "change_condition"))))
    threshold :=
      if !(row (ap ++ "threshold")).isna then some (collapse (row (ap ++ "threshold")))
      else if !(row (mp ++ "threshold")).isna then some (collapse (row (mp ++ "threshold")))
      else none
    alternative_tactic := alt_tactic_of mp ap row }

/-- `build_suppression(main_prefix, alt_prefix, row)` (lines 128–212). -/
def build_suppression (mp ap : String) (row : Row) : TacticBlock :=
  { main := main_tactic mp row
    alternative :=
      if alt_present mp ap row then some (alt_obj_of mp ap row) else none }

/-- One group entry appended by `main` (lines 268–272 and 280–284). -/
structure GroupEntry where
  file_name : String
  agents_per_base : List Int
  suppression_tactic : TacticBlock
deriving DecidableEq

/-- Decimal digits to a number, for `int(str)`; `none` on a non-digit. -/
def parseDigits : List Char → Nat → Option Nat
  | [], acc => some acc
  | c :: cs, acc =>
    if c.isDigit then parseDigits cs (10 * acc + (c.toNat - 48)) else none

/-- Python `int(str)`: strip, optional sign, then decimal digits;
`ValueError` (modelled as `none`) otherwise. -/
def pyParseInt (s : String) : Option Int :=
  match s.pyStrip.data with
  | [] => none
  | '-' :: rest => if rest.isEmpty then none else (parseDigits rest 0).map (fun n => -(n : Int))
  | '+' :: rest => if rest.isEmpty then none else (parseDigits rest 0).map (fun n => (n : Int))
  | cs => (parseDigits cs 0).map (fun n => (n : Int))

/-- Python `int(val)` on a cell: a float truncates toward zero (`Int.tdiv`
is truncating division), an integer-looking string parses after stripping, and
anything else raises `ValueError` — modelled as `none`. -/
def pyInt : Cell → Option Int
  | .nan => none
  | .num q => some (q.num.tdiv (q.den : Int))
  | .str s => pyParseInt s

/-- Lines 264 and 276: `int(row.get(col, 0)) if pd.notna(row.get(col))
else 0`; `none` models a `ValueError` aborting the run. -/
def readCount (row : Row) (col : String) : Option Int :=
  if (row col).isna then some 0 else pyInt (row col)

/-- Line 256: `pd.isna(scen) or str(scen).strip() == ""`. -/
def scenario_blank (row : Row) : Bool :=
  (row "scenario").isna || (row "scenario").pyStr.pyStrip == ""

/-- The dict appended for one group (lines 268–272 / 280–284). -/
def mkEntry (count : Int) (mp ap : String) (row : Row) : GroupEntry :=
  { file_name := AIRCRAFT_FILE
    agents_per_base := distribute_across_bases count NUM_BASES
    suppression_tactic := build_suppression mp ap row }

/-- Lines 254–287, the loop body for one row: the list of group entries
the row contributes (`[]` for a skipped blank-scenario row or one with no
positive group count); `none` models a crash of `int(...)`. -/
def row_entries (row : Row) : Option (List GroupEntry) :=
  if scenario_blank row then some []
  else do
    let fc ← readCount row "first group"
    let e1 := if 0 < fc then [mkEntry fc "g1_" "g1a_" row] else []
    let sc ← readCount row "second group"
    let e2 := if 0 < sc then [mkEntry sc "g2_" "g2a_" row] else []
    return e1 ++ e2

/-- The whole row loop: the `agents` list.  A row's entry list is appended
only when nonempty (line 286). -/
def main_scenarios (rows : List Row) : Option (List (List GroupEntry)) := do
  let per ← rows.mapM row_entries
  return per.filter (fun l => !l.isEmpty)

/-- A row with all cells missing. -/
def rowEmptyCells : Row := fun _ => Cell.nan

/-- A row whose only set cell is the alternative-prefixed `select_poi`. -/
def rowAltOnlySelect : Row :=
  fun k => if k = "g1a_select_poi" then .str "water" else .nan

/-- A row whose only set cell is an alternative-prefixed threshold of `0`. -/
def rowZeroThreshold : Row :=
  fun k => if k = "g1a_threshold" then .num 0 else .nan

/-- A row with a main `select_poi` of `"vegetation"` and a main change
condition of `"wind_shift"` (the worked example of §8 of the spec). -/
def rowWindShift : Row := fun k =>
  if k = "g1_select_poi" then .str "vegetation"
  else if k = "g1_change_condition" then .str "wind_shift" else .nan

/-- A row with a main change condition and an exactly-integral main
threshold. -/
def rowThreshold3 : Row := fun k =>
  if k = "g1_change_condition" then .str "wind_shift"
  else if k = "g1_threshold" then .num 3 else .nan

/-- A row with scenario `"S1"`, a first group of 5 and a main
`select_poi`. -/
def rowScenarioS1 : Row := fun k =>
  if k = "scenario" then .str "S1"
  else if k = "first group" then .num 5
  else if k = "g1_select_poi" then .str "vegetation" else .nan

/-- The alternative-presence condition as §4.3 of the spec words it, with
the threshold legs amended: a threshold counts only when it is present
*and truthy* (a nonzero number or a nonempty string). -/
def alt_presence_claim (mp ap : String) (row : Row) : Bool :=
  ((safe_str (row (ap ++ "select_poi"))).isSome ||
   (safe_str (row (ap ++ "track_poi"))).isSome ||
   (safe_str (row (ap ++ "suppress"))).isSome ||
   (safe_str (row (ap ++ "change_condition"))).isSome ||
   (!(row (ap ++ "threshold")).isna && (row (ap ++ "threshold")).truthy)) ||
  ((safe_str (row (mp ++ "change_condition"))).isSome ||
   (!(row (mp ++ "threshold")).isna && (row (mp ++ "threshold")).truthy))

/-! ### Helper lemmas -/

theorem safe_str_some_ne_empty {c : Cell} {s : String}
    (h : safe_str c = some s) : s ≠ "" := by
  unfold safe_str at h
  by_cases h1 : c.isna
  · simp [h1] at h
  · by_cases h2 : c.pyStr.pyStrip = ""
    · simp [h1, h2] at h
    · simp [h1, h2] at h
      subst h
      exact h2

theorem pyTruthyOpt_safe_str (c : Cell) :
    pyTruthyOpt (safe_str c) = safe_str c := by
  cases h : safe_str c with
  | none => rfl
  | some s => simp [pyTruthyOpt, safe_str_some_ne_empty h]

theorem optStrTruthy_safe_str (c : Cell) :
    optStrTruthy (safe_str c) = (safe_str c).isSome := by
  cases h : safe_str c with
  | none => rfl
  | some s => simp [optStrTruthy, safe_str_some_ne_empty h]

theorem optCellTruthy_guard (c : Cell) :
    optCellTruthy (if c.isna then none else some c) = (!c.isna && c.truthy) := by
  by_cases h : c.isna <;> simp [h, optCellTruthy]

/-- The coded presence test agrees with the (amended) claim-side one. -/
theorem alt_present_eq_claim (mp ap : String) (row : Row) :
    alt_present mp ap row = alt_presence_claim mp ap row := by
  unfold alt_present alt_presence_claim
  rw [optStrTruthy_safe_str, optStrTruthy_safe_str, optStrTruthy_safe_str,
    optStrTruthy_safe_str, optStrTruthy_safe_str, optCellTruthy_guard,
    optCellTruthy_guard]

theorem build_alternative_eq (mp ap : String) (row : Row) :
    (build_suppression mp ap row).alternative =
      if alt_present mp ap row then some (alt_obj_of mp ap row) else none := rfl

theorem build_main_eq (mp ap : String) (row : Row) :
    (build_suppression mp ap row).main = main_tactic mp row := rfl

theorem alt_obj_cc_eq (mp ap : String) (row : Row) :
    (alt_obj_of mp ap row).change_condition =
      match safe_str (row (ap ++ "change_condition")) with
      | some s => some s
      | none => safe_str (row (mp ++ "change_condition")) := by
  show pyTruthyOpt (pyOrStr (safe_str _) (safe_str _)) = _
  cases h1 : safe_str (row (ap ++ "change_condition")) with
  | some s => simp [pyOrStr, pyTruthyOpt, safe_str_some_ne_empty h1]
  | none => simp [pyOrStr, pyTruthyOpt_safe_str]

theorem alt_obj_threshold_eq (mp ap : String) (row : Row) :
    (alt_obj_of mp ap row).threshold =
      if !(row (ap ++ "threshold")).isna then some (collapse (row (ap ++ "threshold")))
      else if !(row (mp ++ "threshold")).isna then some (collapse (row (mp ++ "threshold")))
      else none := rfl

theorem keys_of_alternative_none {t : TacticBlock} (h : t.alternative = none) :
    t.keys = ["main"] := by
  simp [TacticBlock.keys, h]

/-! ### Claim theorems -/

/-- **C8** (confirmed): the normalizer `safe_str` is a pure total
function: a missing/NaN value, or one whose string form is empty after
stripping surrounding whitespace, normalizes to `none`; every other value
normalizes to its stripped string form. -/
theorem safe_str_spec (c : Cell) :
    safe_str c =
      if c.isna = true ∨ c.pyStr.pyStrip = "" then none
      else some c.pyStr.pyStrip := by
  unfold safe_str
  by_cases h1 : c.isna <;> by_cases h2 : c.pyStr.pyStrip = "" <;> simp [h1, h2]

/-- **C10** (confirmed): the tactic block always contains the key
`"main"`; when all three main-prefixed fields are blank, `main` is the
empty object, so a group entry can carry a suppression tactic whose main
tactic has no fields at all. -/
theorem tactic_block_main_spec (mp ap : String) (row : Row) :
    "main" ∈ (build_suppression mp ap row).keys ∧
    (safe_str (row (mp ++ "select_poi")) = none →
     safe_str (row (mp ++ "track_poi")) = none →
     safe_str (row (mp ++ "suppress")) = none →
     (build_suppression mp ap row).main =
       { select_poi := none, track_poi := none, suppress := none }) := by
  constructor
  · simp [TacticBlock.keys]
  · intro h1 h2 h3
    rw [build_main_eq]
    simp [main_tactic, h1, h2, h3, pyTruthyOpt]

/-- Witness for C10: a concrete group entry whose `main` tactic is the
empty object. -/
theorem tactic_block_main_spec_witness :
    (mkEntry 1 "g1_" "g1a_" rowEmptyCells).suppression_tactic.main =
      { select_poi := none, track_poi := none, suppress := none } :=
  (tactic_block_main_spec "g1_" "g1a_" rowEmptyCells).2 rfl rfl rfl

/-- **C2** (corrected): `build_suppression` emits the `alternative` block
iff the boolean OR of the presence conditions holds, with the two
threshold legs amended from "present (not NaN/missing)" to "present and
truthy": a present-but-falsy threshold cell (`0`, `0.0`, `""`) does not
trigger the block.  When the OR is false the result has only the `main`
key. -/
theorem alt_presence_iff (mp ap : String) (row : Row) :
    ((build_suppression mp ap row).alternative.isSome = true ↔
      alt_presence_claim mp ap row = true) ∧
    (alt_presence_claim mp ap row = false →
      (build_suppression mp ap row).keys = ["main"]) := by
  have he := alt_present_eq_claim mp ap row
  constructor
  · rw [build_alternative_eq, he]
    by_cases h : alt_presence_claim mp ap row <;> simp [h]
  · intro hf
    apply keys_of_alternative_none
    rw [build_alternative_eq, he, hf]
    simp

/-- Witness for C2: on a row whose only set cell is a zero threshold the
amended condition is false and the block has only the `main` key. -/
theorem alt_presence_iff_witness :
    (build_suppression "g1_" "g1a_" rowZeroThreshold).keys = ["main"] :=
  (alt_presence_iff "g1_" "g1a_" rowZeroThreshold).2 (by decide)

/-- Counterexample to C2 as stated: the alternative-prefixed threshold is
present (not NaN/missing) — leg (b) of the claimed OR — yet no
`alternative` block is emitted, because `0` is falsy in the code's
`any(...)` test. -/
theorem alt_presence_zero_threshold_cex :
    (rowZeroThreshold "g1a_threshold").isna = false ∧
    (rowZeroThreshold "g1a_threshold") = Cell.num 0 ∧
    (build_suppression "g1_" "g1a_" rowZeroThreshold).alternative = none := by
  refine ⟨rfl, rfl, ?_⟩
  decide

/-- **C1** (corrected): whenever the `alternative` key is included, the
alternative object carries a `change_condition` or a `threshold`, **or**
— the amendment — at least one alternative-prefixed tactic field
(`select_poi`/`track_poi`/`suppress`) was present and triggered the block
on its own, in which case the object may hold only `alternative_tactic`. -/
theorem alternative_requires_trigger (mp ap : String) (row : Row) (ao : AltObj)
    (h : (build_suppression mp ap row).alternative = some ao) :
    ao.change_condition.isSome = true ∨ ao.threshold.isSome = true ∨
    (safe_str (row (ap ++ "select_poi"))).isSome = true ∨
    (safe_str (row (ap ++ "track_poi"))).isSome = true ∨
    (safe_str (row (ap ++ "suppress"))).isSome = true := by
  rw [build_alternative_eq] at h
  by_cases hp : alt_present mp ap row
  · rw [if_pos hp] at h
    injection h with h
    subst h
    rw [alt_present_eq_claim] at hp
    unfold alt_presence_claim at hp
    simp only [Bool.or_eq_true, Bool.and_eq_true, Bool.not_eq_true'] at hp
    rcases hp with ((((hsel | htrk) | hsup) | hcc) | hth) | (hmcc | hmth)
    · exact Or.inr (Or.inr (Or.inl hsel))
    · exact Or.inr (Or.inr (Or.inr (Or.inl htrk)))
    · exact Or.inr (Or.inr (Or.inr (Or.inr hsup)))
    · left
      rw [alt_obj_cc_eq]
      obtain ⟨s, hs⟩ := Option.isSome_iff_exists.mp hcc
      rw [hs]
      rfl
    · right; left
      rw [alt_obj_threshold_eq, hth.1]
      rfl
    · left
      rw [alt_obj_cc_eq]
      cases h1 : safe_str (row (ap ++ "change_condition")) with
      | some s => rfl
      | none => simp [hmcc]
    · right; left
      rw [alt_obj_threshold_eq]
      by_cases h1 : (row (ap ++ "threshold")).isna <;> simp [h1, hmth.1]
  · rw [if_neg hp] at h
    exact absurd h (by simp)

/-- Witness for C1 (amended): a concrete emitted alternative that carries
a change condition. -/
theorem alternative_requires_trigger_witness :
    ((alt_obj_of "g1_" "g1a_" rowWindShift).change_condition.isSome = true ∨
     (alt_obj_of "g1_" "g1a_" rowWindShift).threshold.isSome = true ∨
     (safe_str (rowWindShift "g1a_select_poi")).isSome = true ∨
     (safe_str (rowWindShift "g1a_track_poi")).isSome = true ∨
     (safe_str (rowWindShift "g1a_suppress")).isSome = true) :=
  alternative_requires_trigger "g1_" "g1a_" rowWindShift
    (alt_obj_of "g1_" "g1a_" rowWindShift) (by decide)

/-- Counterexample to C1 as stated: a row whose only set cell is the
alternative-prefixed `select_poi` produces an `alternative` object with
neither `change_condition` nor `threshold`. -/
theorem alternative_without_condition_cex :
    (build_suppression "g1_" "g1a_" rowAltOnlySelect).alternative =
      some { change_condition := none, threshold := none,
             alternative_tactic :=
               { select_poi := "water", track_poi := "follow_firefront",
                 suppress := "direct" } } := by
  decide

/-! ### The base distributor -/

/-- The increment-the-first-`remainder` loop over a replicated list, as a
map over `List.range`. -/
theorem mapIdx_replicate_eq (f : ℕ → Int → Int) (n : ℕ) (c : Int) :
    (List.replicate n c).mapIdx f = (List.range n).map (fun i => f i c) := by
  induction n generalizing f with
  | zero => rfl
  | succ n ih =>
    rw [List.replicate_succ, List.mapIdx_cons, List.range_succ_eq_map,
      List.map_cons, ih, List.map_map]
    rfl

theorem distribute_eq_map_range (total num_bases : Int) (h : num_bases ≤ total) :
    distribute_across_bases total num_bases =
      (List.range num_bases.toNat).map
        (fun (i : ℕ) => if (i : Int) < total.fmod num_bases then total.fdiv num_bases + 1
                        else total.fdiv num_bases) := by
  unfold distribute_across_bases
  rw [if_pos h]
  exact mapIdx_replicate_eq _ _ _

theorem sum_range_if (n : ℕ) (r q : Int) (h0 : 0 ≤ r) :
    ((List.range n).map (fun (i : ℕ) => if (i : Int) < r then q + 1 else q)).sum
      = n * q + min r n := by
  induction n with
  | zero => simp [min_eq_right h0]
  | succ n ih =>
    rw [List.range_succ, List.map_append, List.sum_append, ih]
    simp only [List.map_cons, List.map_nil, List.sum_cons, List.sum_nil, add_zero]
    push_cast
    by_cases h : (n : Int) < r
    · rw [if_pos h, min_eq_right (by omega : (n : Int) ≤ r),
        min_eq_right (by omega : (n : Int) + 1 ≤ r)]
      ring
    · rw [if_neg h, min_eq_left (by omega : r ≤ (n : Int)),
        min_eq_left (by omega : r ≤ (n : Int) + 1)]
      ring

/-- **C3** (confirmed): for `total ≥ num_bases ≥ 1` the distributor
returns exactly `num_bases` non-negative values summing to `total`, each
`total // num_bases` or one more, with the larger values at exactly the
first `total % num_bases` positions. -/
theorem distribute_ge_spec (total num_bases : Int)
    (h1 : 1 ≤ num_bases) (h2 : num_bases ≤ total) :
    (distribute_across_bases total num_bases).length = num_bases.toNat ∧
    (distribute_across_bases total num_bases).sum = total ∧
    (∀ x ∈ distribute_across_bases total num_bases,
      0 ≤ x ∧ (x = total.fdiv num_bases ∨ x = total.fdiv num_bases + 1)) ∧
    (∀ i : ℕ, ∀ hi : i < (distribute_across_bases total num_bases).length,
      (distribute_across_bases total num_bases).get ⟨i, hi⟩ =
        if (i : Int) < total.fmod num_bases then total.fdiv num_bases + 1
        else total.fdiv num_bases) := by
  have hb : 0 < num_bases := h1
  have hbn : ((num_bases.toNat : Int)) = num_bases := Int.toNat_of_nonneg (le_of_lt hb)
  have hfd : total.fdiv num_bases = total / num_bases :=
    Int.fdiv_eq_ediv total (le_of_lt hb)
  have hfm : total.fmod num_bases = total % num_bases :=
    Int.fmod_eq_emod total (le_of_lt hb)
  have hr0 : 0 ≤ total.fmod num_bases := by
    rw [hfm]; exact Int.emod_nonneg total (ne_of_gt hb)
  have hrlt : total.fmod num_bases < num_bases := by
    rw [hfm]; exact Int.emod_lt_of_pos total hb
  have hq1 : 1 ≤ total.fdiv num_bases := by
    rw [hfd, Int.le_ediv_iff_mul_le hb, one_mul]; exact h2
  rw [distribute_eq_map_range total num_bases h2]
  refine ⟨?_, ?_, ?_, ?_⟩
  · simp
  · rw [sum_range_if _ _ _ hr0]
    have hmin : min (total.fmod num_bases) ((num_bases.toNat : Int)) =
        total.fmod num_bases := by
      rw [hbn]; exact min_eq_left (le_of_lt hrlt)
    rw [hmin, hbn, hfd, hfm]
    have := Int.ediv_add_emod total num_bases
    linarith
  · intro x hx
    simp only [List.mem_map, List.mem_range] at hx
    obtain ⟨i, _, hix⟩ := hx
    by_cases hc : (i : Int) < total.fmod num_bases
    · rw [if_pos hc] at hix
      exact ⟨by omega, Or.inr hix.symm⟩
    · rw [if_neg hc] at hix
      exact ⟨by omega, Or.inl hix.symm⟩
  · intro i hi
    simp only [List.get_eq_getElem, List.getElem_map, List.getElem_range]

/-- Witness for C3 at `total = 5`, `num_bases = 2`. -/
theorem distribute_ge_spec_witness :
    (distribute_across_bases 5 2).sum = 5 :=
  (distribute_ge_spec 5 2 (by decide) (by decide)).2.1

/-- **C4** (confirmed): for `0 ≤ total < num_bases` the distributor
returns exactly `total` ones followed by `num_bases - total` zeros; in
particular all zeros for `total = 0`. -/
theorem distribute_lt_spec (total num_bases : Int)
    (h0 : 0 ≤ total) (h : total < num_bases) :
    distribute_across_bases total num_bases =
      List.replicate total.toNat 1 ++ List.replicate (num_bases - total).toNat 0 ∧
    (distribute_across_bases total num_bases).length = num_bases.toNat ∧
    (distribute_across_bases total num_bases).sum = total ∧
    (total = 0 →
      distribute_across_bases total num_bases = List.replicate num_bases.toNat 0) := by
  have hbranch : distribute_across_bases total num_bases =
      List.replicate total.toNat 1 ++ List.replicate (num_bases - total).toNat 0 := by
    unfold distribute_across_bases
    rw [if_neg (by omega)]
  refine ⟨hbranch, ?_, ?_, ?_⟩
  · rw [hbranch]
    simp only [List.length_append, List.length_replicate]
    omega
  · rw [hbranch]
    simp only [List.sum_append, List.sum_replicate, nsmul_eq_mul, mul_one, mul_zero,
      add_zero]
    omega
  · intro hz
    rw [hbranch, hz]
    simp

/-- Witness for C4 at `total = 1`, `num_bases = 3`. -/
theorem distribute_lt_spec_witness :
    distribute_across_bases 1 3 = [1, 0, 0] := by
  have h := (distribute_lt_spec 1 3 (by decide) (by decide)).1
  simpa using h

/-- **C9** (confirmed): for `total < 0` and `num_bases ≥ 1` the
distributor returns `num_bases - total` zeros — a list strictly longer
than `num_bases` whose sum is `0`, not `total` — so the length/sum
contract needs `total ≥ 0`; and the pipeline only ever calls it with a
positive count, so every emitted `agents_per_base` comes from a positive
total. -/
theorem distribute_neg_spec (total num_bases : Int)
    (hneg : total < 0) (h1 : 1 ≤ num_bases) :
    (distribute_across_bases total num_bases).length = (num_bases - total).toNat ∧
    num_bases.toNat < (distribute_across_bases total num_bases).length ∧
    (∀ x ∈ distribute_across_bases total num_bases, x = 0) ∧
    (distribute_across_bases total num_bases).sum = 0 ∧
    (distribute_across_bases total num_bases).sum ≠ total ∧
    (∀ (row : Row) (l : List GroupEntry), row_entries row = some l →
      ∀ e ∈ l, ∃ c : Int, 0 < c ∧
        e.agents_per_base = distribute_across_bases c NUM_BASES) := by
  have hbranch : distribute_across_bases total num_bases =
      List.replicate total.toNat 1 ++ List.replicate (num_bases - total).toNat 0 := by
    unfold distribute_across_bases
    rw [if_neg (by omega)]
  have hz : total.toNat = 0 := by omega
  rw [hbranch, hz]
  simp only [List.replicate_zero, List.nil_append]
  refine ⟨by simp, ?_, ?_, by simp, ?_, ?_⟩
  · simp only [List.length_replicate]
    omega
  · intro x hx
    exact List.eq_of_mem_replicate hx
  · simp only [List.sum_replicate, smul_zero]
    omega
  · intro row l hl e he
    unfold row_entries at hl
    by_cases hb : scenario_blank row
    · rw [if_pos hb] at hl
      injection hl with hl
      rw [← hl] at he
      exact absurd he (List.not_mem_nil e)
    · rw [if_neg hb] at hl
      cases hfc : readCount row "first group" with
      | none => rw [hfc] at hl; exact absurd hl (by simp)
      | some fc =>
        cases hsc : readCount row "second group" with
        | none => rw [hfc, hsc] at hl; exact absurd hl (by simp)
        | some sc =>
          rw [hfc, hsc] at hl
          simp only [Option.bind_eq_bind, Option.some_bind, Option.pure_def,
            Option.some_inj] at hl
          rw [← hl] at he
          rw [List.mem_append] at he
          rcases he with he | he
          · by_cases hfcpos : 0 < fc
            · rw [if_pos hfcpos] at he
              rw [List.mem_singleton] at he
              exact ⟨fc, hfcpos, by rw [he]; rfl⟩
            · rw [if_neg hfcpos] at he
              exact absurd he (List.not_mem_nil e)
          · by_cases hscpos : 0 < sc
            · rw [if_pos hscpos] at he
              rw [List.mem_singleton] at he
              exact ⟨sc, hscpos, by rw [he]; rfl⟩
            · rw [if_neg hscpos] at he
              exact absurd he (List.not_mem_nil e)

/-- Witness for C9 at `total = -2`, `num_bases = 2`. -/
theorem distribute_neg_spec_witness :
    (distribute_across_bases (-2) 2).length = 4 :=
  (distribute_neg_spec (-2) 2 (by decide) (by decide)).1

/-! ### The alternative tactic's fields -/

theorem pyOrDefault_some {c : Cell} {s d : String} (h : safe_str c = some s) :
    pyOrDefault (safe_str c) d = s := by
  rw [h]
  simp [pyOrDefault, safe_str_some_ne_empty h]

theorem pyOrDefault_none {c : Cell} {d : String} (h : safe_str c = none) :
    pyOrDefault (safe_str c) d = d := by
  rw [h]
  rfl

/-- **C5** (confirmed): whenever an alternative tactic is emitted, its
`select_poi` is the alternative-prefixed value when present and otherwise
derives case-insensitively from the main tactic's `select_poi`
(vegetation → water, water → vegetation, anything else — absent included
— → vegetation); `track_poi` is the alternative-prefixed value or the
literal `"follow_firefront"`; `suppress` the alternative-prefixed value or
the literal `"direct"`. -/
theorem alt_tactic_fields_spec (mp ap : String) (row : Row) (ao : AltObj)
    (h : (build_suppression mp ap row).alternative = some ao) :
    (∀ s, safe_str (row (ap ++ "select_poi")) = some s →
      ao.alternative_tactic.select_poi = s) ∧
    (safe_str (row (ap ++ "select_poi")) = none →
      ao.alternative_tactic.select_poi =
        (match (build_suppression mp ap row).main.select_poi with
         | some t =>
           if t.pyLower = "vegetation" then "water"
           else if t.pyLower = "water" then "vegetation"
           else "vegetation"
         | none => "vegetation")) ∧
    (∀ s, safe_str (row (ap ++ "track_poi")) = some s →
      ao.alternative_tactic.track_poi = s) ∧
    (safe_str (row (ap ++ "track_poi")) = none →
      ao.alternative_tactic.track_poi = "follow_firefront") ∧
    (∀ s, safe_str (row (ap ++ "suppress")) = some s →
      ao.alternative_tactic.suppress = s) ∧
    (safe_str (row (ap ++ "suppress")) = none →
      ao.alternative_tactic.suppress = "direct") := by
  rw [build_alternative_eq] at h
  by_cases hp : alt_present mp ap row
  · rw [if_pos hp] at h
    injection h with h
    subst h
    refine ⟨?_, ?_, ?_, ?_, ?_, ?_⟩
    · intro s hs
      show (alt_tactic_of mp ap row).select_poi = s
      simp only [alt_tactic_of]
      rw [pyTruthyOpt_safe_str, hs]
    · intro hn
      show (alt_tactic_of mp ap row).select_poi = _
      simp only [alt_tactic_of]
      rw [pyTruthyOpt_safe_str, hn, build_main_eq]
      cases hms : (main_tactic mp row).select_poi with
      | some t => simp only [hms]
      | none =>
        simp only [hms]
        decide
    · intro s hs
      show (alt_tactic_of mp ap row).track_poi = s
      simp only [alt_tactic_of]
      exact pyOrDefault_some hs
    · intro hn
      show (alt_tactic_of mp ap row).track_poi = _
      simp only [alt_tactic_of]
      exact pyOrDefault_none hn
    · intro s hs
      show (alt_tactic_of mp ap row).suppress = s
      simp only [alt_tactic_of]
      exact pyOrDefault_some hs
    · intro hn
      show (alt_tactic_of mp ap row).suppress = _
      simp only [alt_tactic_of]
      exact pyOrDefault_none hn
  · rw [if_neg hp] at h
    exact absurd h (by simp)

/-- Witness for C5: the worked example of §8 — main `select_poi`
"vegetation", alternative `select_poi` blank — flips to `"water"`. -/
theorem alt_tactic_fields_spec_witness :
    (alt_obj_of "g1_" "g1a_" rowWindShift).alternative_tactic.select_poi = "water" := by
  have h := (alt_tactic_fields_spec "g1_" "g1a_" rowWindShift
    (alt_obj_of "g1_" "g1a_" rowWindShift) (by decide)).2.1 (by decide)
  rw [h]
  decide

/-- **C6** (confirmed): whenever an alternative block is emitted, its
`change_condition` is the alternative-prefixed value when non-`None`,
otherwise the main-prefixed one, omitted only when both are `None`; its
`threshold` prefers the alternative-prefixed numeric cell, then the
main-prefixed one, collapsing an exactly-integral value to the integer
and leaving other numeric values unchanged, and is omitted when neither
cell is present. -/
theorem alt_obj_fields_spec (mp ap : String) (row : Row) (ao : AltObj)
    (h : (build_suppression mp ap row).alternative = some ao) :
    ao.change_condition =
      (match safe_str (row (ap ++ "change_condition")) with
       | some s => some s
       | none => safe_str (row (mp ++ "change_condition"))) ∧
    (ao.change_condition = none ↔
      safe_str (row (ap ++ "change_condition")) = none ∧
      safe_str (row (mp ++ "change_condition")) = none) ∧
    (∀ q : ℚ, row (ap ++ "threshold") = .num q →
      ao.threshold = some (if q.den = 1 then JThresh.int q.num else JThresh.rat q)) ∧
    ((row (ap ++ "threshold")).isna = true →
      ∀ q : ℚ, row (mp ++ "threshold") = .num q →
        ao.threshold = some (if q.den = 1 then JThresh.int q.num else JThresh.rat q)) ∧
    ((row (ap ++ "threshold")).isna = true → (row (mp ++ "threshold")).isna = true →
      ao.threshold = none) := by
  rw [build_alternative_eq] at h
  by_cases hp : alt_present mp ap row
  · rw [if_pos hp] at h
    injection h with h
    subst h
    refine ⟨alt_obj_cc_eq mp ap row, ?_, ?_, ?_, ?_⟩
    · rw [alt_obj_cc_eq]
      cases h1 : safe_str (row (ap ++ "change_condition")) with
      | some s => simp
      | none => simp
    · intro q hq
      rw [alt_obj_threshold_eq, hq]
      simp [Cell.isna, collapse]
    · intro hna q hq
      rw [alt_obj_threshold_eq, hq, hna]
      simp [Cell.isna, collapse]
    · intro hna1 hna2
      rw [alt_obj_threshold_eq]
      simp [hna1, hna2]
  · rw [if_neg hp] at h
    exact absurd h (by simp)

/-- Witness for C6: a main-prefixed threshold of `3.0` collapses to the
integer `3` in the emitted alternative. -/
theorem alt_obj_fields_spec_witness :
    (alt_obj_of "g1_" "g1a_" rowThreshold3).threshold = some (JThresh.int 3) := by
  have h := (alt_obj_fields_spec "g1_" "g1a_" rowThreshold3
    (alt_obj_of "g1_" "g1a_" rowThreshold3) (by decide)).2.2.2.1 rfl 3 (by decide)
  rw [h]
  decide

/-- **C7** (confirmed): a row contributes a scenario list to `agents` iff
its `scenario` field is non-blank after normalization and at least one
group count is positive; each of the two group entries is created
independently iff its count (blank/NaN read as 0) is strictly positive;
a blank-scenario row contributes nothing regardless of counts. -/
theorem row_processing_spec (row : Row) (fc sc : Int)
    (hfc : readCount row "first group" = some fc)
    (hsc : readCount row "second group" = some sc) :
    ∃ l, row_entries row = some l ∧
      l = (if scenario_blank row then []
           else (if 0 < fc then [mkEntry fc "g1_" "g1a_" row] else [])
             ++ (if 0 < sc then [mkEntry sc "g2_" "g2a_" row] else [])) ∧
      (l ≠ [] ↔ scenario_blank row = false ∧ (0 < fc ∨ 0 < sc)) ∧
      main_scenarios [row] =
        some (if scenario_blank row = false ∧ (0 < fc ∨ 0 < sc) then [l] else []) := by
  have hre : row_entries row =
      some (if scenario_blank row then []
            else (if 0 < fc then [mkEntry fc "g1_" "g1a_" row] else [])
              ++ (if 0 < sc then [mkEntry sc "g2_" "g2a_" row] else [])) := by
    unfold row_entries
    by_cases hb : scenario_blank row
    · rw [if_pos hb, if_pos hb]
    · rw [if_neg hb, if_neg hb, hfc, hsc]
      rfl
  refine ⟨_, hre, rfl, ?_, ?_⟩
  · by_cases hb : scenario_blank row
    · simp [hb]
    · rw [if_neg hb]
      by_cases h1 : 0 < fc <;> by_cases h2 : 0 < sc <;>
        simp [hb, h1, h2, Bool.not_eq_true]
  · unfold main_scenarios
    simp only [List.mapM_cons, List.mapM_nil, hre, Option.bind_eq_bind,
      Option.some_bind, Option.pure_def, Option.some_inj]
    by_cases hb : scenario_blank row
    · simp [hb]
    · rw [if_neg hb]
      by_cases h1 : 0 < fc <;> by_cases h2 : 0 < sc <;>
        simp [hb, h1, h2, Bool.not_eq_true, List.filter]

/-- Witness for C7: the §8 example row (`scenario = "S1"`,
`first group = 5`, `second group` missing) yields exactly one scenario
with one group entry. -/
theorem row_processing_spec_witness :
    main_scenarios [rowScenarioS1] = some [[mkEntry 5 "g1_" "g1a_" rowScenarioS1]] := by
  obtain ⟨l, h1, h2, h3, h4⟩ :=
    row_processing_spec rowScenarioS1 5 0 (by decide) (by decide)
  rw [h4, h2]
  decide
